import Mathlib

/-!
Shallow embedding of `proxyscrape/scrapers.py` and verification of the
specification's claims about it.

Modelling conventions, stated once here:

* Python exceptions are embedded as `Except PyError`; the constructors of
  `PyError` correspond to the exception classes that the source raises or
  catches (`AttributeError`, `KeyError`, `IndexError`, `RequestNotOKError`,
  `InvalidHTMLError`).
* `time.time()` is an external effect.  `ProxyResource.refresh` reads the
  clock up to three times (line 48, line 53, line 57 of the source), so the
  embedded `refresh` takes the three observed clock values `t1 t2 t3 : ℚ`
  as explicit arguments.
* `self._func(self._url)` is an external fetch-and-parse call; its outcome
  is passed to the embedded `refresh` as a `funcResult : Except PyError _`
  argument.  The `fetched` field of the outcome records whether the source
  would have invoked `self._func` on that path.
* `requests.get` and BeautifulSoup are external collaborators: an HTML
  response is embedded as its status flag together with the structural
  content the parsers query (the `proxylisttable` table, its `tbody`, the
  `td` texts of each row); a text response is its status flag and body.
* Python `set` is embedded as `Finset`, `str.lower()` as an ASCII
  character-wise lower-casing (all strings involved are ASCII).
-/

/-- The Python exception classes raised or caught by `scrapers.py`. -/
inductive PyError where
  | attributeError : PyError
  | keyError : PyError
  | indexError : PyError
  | requestNotOK : PyError
  | invalidHTML : PyError
deriving DecidableEq, Repr

/-- `Proxy = namedtuple('Proxy', ['host', 'port', 'code', 'country',
'anonymous', 'type', 'source'])`.  The table parsers fill every field;
the proxy-daily parsers pass `None` for `code`, `country` and `anonymous`,
hence those three fields are `Option`-typed. -/
structure Proxy where
  host : String
  port : String
  code : Option String
  country : Option String
  anonymous : Option Bool
  type : String
  source : String
deriving DecidableEq, Repr

/-- Python `str.lower()` restricted to ASCII (every string the scrapers
lower-case is ASCII): character-wise lower-casing. -/
def pyLower (s : String) : String :=
  String.mk (s.toList.map Char.toLower)

/-- `ProxyResource.__init__` state: `_url`, `_refresh_interval` and
`_last_refresh_time`.  (`_func` is the external fetch capability, passed
per call to `refresh`; `_lock` is the concurrency primitive, modelled
separately in the interleaving semantics below.) -/
structure ProxyResource where
  url : String
  refresh_interval : ℚ
  last_refresh_time : ℚ
deriving DecidableEq

/-- `ProxyResource.__init__(url, func, refresh_interval)`:
`self._last_refresh_time = 0`. -/
def ProxyResource.init (url : String) (refresh_interval : ℚ) : ProxyResource :=
  { url := url, refresh_interval := refresh_interval, last_refresh_time := 0 }

/-- Result of one `ProxyResource.refresh` call: the Python return value
(or the escaping exception), the resource state after the call, and
whether `self._func` was invoked on that path. -/
structure RefreshOutcome where
  res : Except PyError (Bool × Option (Finset Proxy))
  state : ProxyResource
  fetched : Bool

/-- `ProxyResource.refresh(force=False)`, source lines 47-62.
`t1` is the clock value read by the fast-path guard (line 48), `t2` the
value read by the re-check under the lock (line 53), `t3` the value read
when storing `self._last_refresh_time` after a successful fetch (line 57).
`funcResult` is the outcome of `self._func(self._url)`; the `try` block
catches exactly `InvalidHTMLError` and `RequestNotOKError`, every other
exception escapes. -/
def ProxyResource.refresh (r : ProxyResource) (force : Bool) (t1 t2 t3 : ℚ)
    (funcResult : Except PyError (Finset Proxy)) : RefreshOutcome :=
  if force = false ∧ r.last_refresh_time + r.refresh_interval > t1 then
    ⟨Except.ok (false, none), r, false⟩
  else if force = true ∨ r.last_refresh_time + r.refresh_interval ≤ t2 then
    match funcResult with
    | Except.ok ps =>
        ⟨Except.ok (true, some ps), { r with last_refresh_time := t3 }, true⟩
    | Except.error PyError.invalidHTML => ⟨Except.ok (false, none), r, true⟩
    | Except.error PyError.requestNotOK => ⟨Except.ok (false, none), r, true⟩
    | Except.error e => ⟨Except.error e, r, true⟩
  else
    ⟨Except.ok (false, none), r, false⟩

/-! ## HTML table sources

`get_anonymous_proxies`, `get_free_proxy_list_proxies`, `get_socks_proxies`,
`get_ssl_proxies`, `get_uk_proxies` and `get_us_proxies` all follow the same
shape (source lines 65-88, 91-114, 183-206, 209-231, 234-257, 260-283):
fetch, check `response.ok`, look up `<table id="proxylisttable">`, iterate
the `<tr>` rows of its `<tbody>`, index into the `<td>` texts of each row,
and catch `(AttributeError, KeyError)` as `InvalidHTMLError`.  They differ
only in which cells they read and how they fill the record, so the common
shape is factored into `tableScrape` with one row function per family. -/
/-- The structural content of a fetched HTML document, as the parsers
query it: `table` is `soup.find('table', {'id': 'proxylisttable'})`
(`none` when absent), `tbody` is `table.find('tbody')` (`none` when
absent), and each row is the list of `td` texts produced by
`list(map(lambda x: x.text, row.find_all('td')))`. -/
structure HtmlTable where
  tbody : Option (List (List String))

/-- An HTML document: the `proxylisttable` table, if present. -/
structure HtmlDoc where
  table : Option HtmlTable

/-- A fetched HTML response: `response.ok` plus the parsed content. -/
structure HtmlResponse where
  ok : Bool
  doc : HtmlDoc

/-- Python list indexing `data[i]`: raises `IndexError` out of range. -/
def pyIndex (data : List String) (i : Nat) : Except PyError String :=
  match data.get? i with
  | some x => Except.ok x
  | none => Except.error PyError.indexError

/-- The loop body of the `free-proxy-list`-style parsers
(`get_anonymous_proxies`, `get_free_proxy_list_proxies`, `get_uk_proxies`,
`get_us_proxies`), e.g. source lines 270-279: reads cells 0,1,2,3,4,6 and
derives `version` from whether cell 6 (the Https column) says `yes`. -/
def mkRowFPL (src : String) (data : List String) : Except PyError Proxy :=
  Except.bind (pyIndex data 0) (fun host =>
  Except.bind (pyIndex data 1) (fun port =>
  Except.bind (pyIndex data 2) (fun code =>
  Except.bind (pyIndex data 3) (fun country =>
  Except.bind (pyIndex data 4) (fun anon =>
  Except.bind (pyIndex data 6) (fun ver =>
  Except.ok
    { host := host, port := port, code := some (pyLower code),
      country := some (pyLower country),
      anonymous := some (pyLower anon == "anonymous" || pyLower anon == "elite proxy"),
      type := if pyLower ver == "yes" then "https" else "http", source := src }))))))

/-- The loop body of `get_ssl_proxies` (source lines 219-227): reads cells
0,1,2,3,4 and hard-codes `'https'` as the type. -/
def mkRowSSL (src : String) (data : List String) : Except PyError Proxy :=
  Except.bind (pyIndex data 0) (fun host =>
  Except.bind (pyIndex data 1) (fun port =>
  Except.bind (pyIndex data 2) (fun code =>
  Except.bind (pyIndex data 3) (fun country =>
  Except.bind (pyIndex data 4) (fun anon =>
  Except.ok
    { host := host, port := port, code := some (pyLower code),
      country := some (pyLower country),
      anonymous := some (pyLower anon == "anonymous" || pyLower anon == "elite proxy"),
      type := "https", source := src })))))

/-- The loop body of `get_socks_proxies` (source lines 193-202): reads
cells 0,1,2,3,4,5; the type is `data[4].lower()` copied verbatim from the
table's Version column, and the anonymity label sits in cell 5. -/
def mkRowSocks (src : String) (data : List String) : Except PyError Proxy :=
  Except.bind (pyIndex data 0) (fun host =>
  Except.bind (pyIndex data 1) (fun port =>
  Except.bind (pyIndex data 2) (fun code =>
  Except.bind (pyIndex data 3) (fun country =>
  Except.bind (pyIndex data 4) (fun ver =>
  Except.bind (pyIndex data 5) (fun anon =>
  Except.ok
    { host := host, port := port, code := some (pyLower code),
      country := some (pyLower country),
      anonymous := some (pyLower anon == "anonymous" || pyLower anon == "elite proxy"),
      type := pyLower ver, source := src }))))))

/-- `soup.find('table', ...)` / `table.find('tbody')` /
`tbody.find_all('tr')`: calling `.find`/`.find_all` on a `None` result
raises `AttributeError`. -/
def tableRows (doc : HtmlDoc) : Except PyError (List (List String)) :=
  match doc.table with
  | none => Except.error PyError.attributeError
  | some t =>
    match t.tbody with
    | none => Except.error PyError.attributeError
    | some rows => Except.ok rows

/-- The `for` loop over the rows: the first failing row aborts the whole
parse with its exception, otherwise all records are produced in order. -/
def rowsMapM (mkRow : List String → Except PyError Proxy) :
    List (List String) → Except PyError (List Proxy)
  | [] => Except.ok []
  | row :: rest =>
    Except.bind (mkRow row) (fun p =>
    Except.bind (rowsMapM mkRow rest) (fun ps =>
    Except.ok (p :: ps)))

/-- `except (AttributeError, KeyError): raise InvalidHTMLError()` around
the soup-processing block; any other exception (notably `IndexError`)
escapes unchanged. -/
def catchSoup (x : Except PyError (Finset Proxy)) : Except PyError (Finset Proxy) :=
  match x with
  | Except.error PyError.attributeError => Except.error PyError.invalidHTML
  | Except.error PyError.keyError => Except.error PyError.invalidHTML
  | y => y

/-- Common shape of the six table parsers: `response.ok` check raising
`RequestNotOKError`, then the guarded soup-processing block building the
`proxies` set. -/
def tableScrape (mkRow : List String → Except PyError Proxy)
    (resp : HtmlResponse) : Except PyError (Finset Proxy) :=
  if resp.ok = false then Except.error PyError.requestNotOK
  else
    catchSoup (Except.bind (tableRows resp.doc) (fun rows =>
      Except.bind (rowsMapM mkRow rows) (fun ps =>
      Except.ok ps.toFinset)))

/-- `get_anonymous_proxies` (source lines 65-88). -/
def get_anonymous_proxies : HtmlResponse → Except PyError (Finset Proxy) :=
  tableScrape (mkRowFPL "anonymous-proxy")

/-- `get_free_proxy_list_proxies` (source lines 91-114). -/
def get_free_proxy_list_proxies : HtmlResponse → Except PyError (Finset Proxy) :=
  tableScrape (mkRowFPL "free-proxy-list")

/-- `get_socks_proxies` (source lines 183-206). -/
def get_socks_proxies : HtmlResponse → Except PyError (Finset Proxy) :=
  tableScrape (mkRowSocks "socks-proxy")

/-- `get_ssl_proxies` (source lines 209-231). -/
def get_ssl_proxies : HtmlResponse → Except PyError (Finset Proxy) :=
  tableScrape (mkRowSSL "ssl-proxy")

/-- `get_uk_proxies` (source lines 234-257). -/
def get_uk_proxies : HtmlResponse → Except PyError (Finset Proxy) :=
  tableScrape (mkRowFPL "uk-proxy")

/-- `get_us_proxies` (source lines 260-283). -/
def get_us_proxies : HtmlResponse → Except PyError (Finset Proxy) :=
  tableScrape (mkRowFPL "us-proxy")

/-- A fetched document whose table and tbody are present but whose single
row has only five `td` cells — fewer than the seven the
`free-proxy-list`-style parsers index into. -/
def shortRowResponse : HtmlResponse :=
  ⟨true, ⟨some ⟨some [["1.2.3.4", "8080", "US", "United States", "elite proxy"]]⟩⟩⟩

/-! ## Marker-delimited (proxy-daily) sources

`get_proxy_daily_http_proxies`, `get_proxy_daily_socks4_proxies` and
`get_proxy_daily_socks5_proxies` (source lines 133-180) run an outer
`re.findall` with flags `re.X | re.S` whose pattern is the literal marker
text of one category heading, `.*`, and (for http and socks4) the literal
marker text of the next heading; each space of the marker text is the
class `\s` in the pattern, and under `re.S` the `.*` also matches
newlines.  The region `outer_reg[0]` is then scanned by the inner pattern
`([0-9]{1,3}\.[0-9]{1,3}\.[0-9]{1,3}\.[0-9]{1,3}:[0-9]{1,5})` in
`_get_proxy_daily_proxies_parse_inner` (source lines 117-130).

The embedding implements exactly these two fixed pattern shapes:

* a marker is a fixed-length sequence of pattern atoms (a literal
  character, matched case-sensitively, or `\s`, matching one whitespace
  character);
* `M1 .* M2` with a greedy dot-all `.*`: the match used as `outer_reg[0]`
  starts at the leftmost position where `M1` matches with some `M2` match
  at or after its end, and extends to the end of the *last* such `M2`
  match (greediness of `.*`);
* the inner pattern's `[0-9]{1,3}` runs are each followed by a literal
  that is not a digit (`.` or `:`), so with backtracking a run before `.`
  matches exactly when the position has 1-3 leading digits followed by
  that literal; the final `[0-9]{1,5}` has nothing after it, so it
  greedily takes `min 5` of the leading digits.  `re.findall` scans left
  to right and resumes after each non-overlapping match. -/
/-- One atom of a verbose-mode regex marker: a literal character or `\s`. -/
inductive PatAtom where
  | lit : Char → PatAtom
  | ws : PatAtom
deriving DecidableEq

/-- Whether an atom matches one character.  `\s` (without `re.UNICODE`
subtleties — the marker texts and documents here are ASCII) matches
space, tab, newline, carriage return, vertical tab and form feed. -/
def atomMatches (a : PatAtom) (c : Char) : Bool :=
  match a with
  | PatAtom.lit x => c = x
  | PatAtom.ws =>
      c = ' ' || c = '\t' || c = '\n' || c = '\r' || c = '\x0b' || c = '\x0c'

/-- Match a fixed-length atom sequence at the head of `l`; on success
return the remaining characters. -/
def patMatch : List PatAtom → List Char → Option (List Char)
  | [], rest => some rest
  | _ :: _, [] => none
  | a :: p, c :: cs => if atomMatches a c then patMatch p cs else none

/-- Whether the marker matches at offset `i` of `l`. -/
def patMatchesAt (p : List PatAtom) (l : List Char) (i : Nat) : Bool :=
  (patMatch p (l.drop i)).isSome

/-- Build a marker from the literal text of a verbose-mode pattern: each
space stands for `\s`, every other character for itself. -/
def mkMarker (s : String) : List PatAtom :=
  s.toList.map (fun c => if c = ' ' then PatAtom.ws else PatAtom.lit c)

/-- `Free\sHttp/Https\sProxy\sList` (source line 139). -/
def httpListMarker : List PatAtom := mkMarker "Free Http/Https Proxy List"

/-- `Free\sSocks4\sProxy\sList` (source lines 141, 156). -/
def socks4ListMarker : List PatAtom := mkMarker "Free Socks4 Proxy List"

/-- `Free\sSocks5\sProxy\sList` (source lines 158, 173). -/
def socks5ListMarker : List PatAtom := mkMarker "Free Socks5 Proxy List"

/-- Start offset of the last match of `m` in `l` at offset `≥ lo`
(the end marker chosen by the greedy `.*`). -/
def lastStartFrom (m : List PatAtom) (l : List Char) (lo : Nat) : Option Nat :=
  ((List.range (l.length + 1)).filter
    (fun j => decide (lo ≤ j) && patMatchesAt m l j)).getLast?

/-- Leftmost start of a match of `M1 .* M2`: the first offset where `m1`
matches and some `m2` match starts at or after its end. -/
def firstSpanStart (m1 m2 : List PatAtom) (l : List Char) : Option Nat :=
  (List.range (l.length + 1)).find?
    (fun i => patMatchesAt m1 l i && (lastStartFrom m2 l (i + m1.length)).isSome)

/-- `re.findall(M1 .* M2, text, re.X | re.S)[0]`: the match from the
leftmost viable `m1` start to the end of the last `m2` match (greedy
`.*` under dot-all), or `none` when the pattern does not match. -/
def findSpan (m1 m2 : List PatAtom) (l : List Char) : Option (List Char) :=
  Option.bind (firstSpanStart m1 m2 l) (fun i =>
  Option.bind (lastStartFrom m2 l (i + m1.length)) (fun j =>
  some ((l.drop i).take (j + m2.length - i))))

/-- `re.findall(M1 .*, text, re.X | re.S)[0]`: from the leftmost `m1`
match to the end of the document (greedy dot-all `.*`). -/
def findSpanToEnd (m1 : List PatAtom) (l : List Char) : Option (List Char) :=
  Option.bind ((List.range (l.length + 1)).find? (fun i => patMatchesAt m1 l i))
    (fun i => some (l.drop i))

/-- Number of leading `[0-9]` digits. -/
def digitCount : List Char → Nat
  | [] => 0
  | c :: cs => if c.isDigit then digitCount cs + 1 else 0

/-- `[0-9]{1,3}` followed by the literal `sep` (`.` or `:`), with
backtracking: since every character the digit run could give back is a
digit and `sep` is not, the segment matches exactly when `l` starts with
1-3 digits followed by `sep`.  Returns the consumed characters (digits
plus separator) and the rest. -/
def segMatch (sep : Char) (l : List Char) : Option (List Char × List Char) :=
  if 1 ≤ digitCount l ∧ digitCount l ≤ 3 ∧ l.get? (digitCount l) = some sep then
    some (l.take (digitCount l) ++ [sep], l.drop (digitCount l + 1))
  else none

/-- One attempted match of the inner pattern
`[0-9]{1,3}\.[0-9]{1,3}\.[0-9]{1,3}\.[0-9]{1,3}:[0-9]{1,5}` at the head
of `l`: four digit-run segments and the greedy 1-5 digit port. -/
def matchIpPort (l : List Char) : Option (List Char × List Char) :=
  Option.bind (segMatch '.' l) (fun p1 =>
  Option.bind (segMatch '.' p1.2) (fun p2 =>
  Option.bind (segMatch '.' p2.2) (fun p3 =>
  Option.bind (segMatch ':' p3.2) (fun p4 =>
  if digitCount p4.2 = 0 then none
  else some (p1.1 ++ p2.1 ++ p3.1 ++ p4.1 ++ p4.2.take (min 5 (digitCount p4.2)),
             p4.2.drop (min 5 (digitCount p4.2)))))))

/-- `re.findall` of the inner pattern with explicit fuel: scan left to
right, matches do not overlap, scanning resumes right after each match.
Every step strictly shrinks the remaining text (`matchIpPort_rest_lt`),
so fuel equal to the text length never runs out; the fuel only makes the
recursion structural. -/
def scanAllAux : Nat → List Char → List (List Char)
  | 0, _ => []
  | fuel + 1, l =>
    match l with
    | [] => []
    | c :: cs =>
      match matchIpPort (c :: cs) with
      | some (t, r) => t :: scanAllAux fuel r
      | none => scanAllAux fuel cs

/-- `re.findall` of the inner pattern over the whole region. -/
def scanAll (l : List Char) : List (List Char) :=
  scanAllAux l.length l

/-- `Proxy(*i.split(':'), None, None, None, type, source)` for one
captured `host:port` token. -/
def mkDailyProxy (ty src : String) (tok : List Char) : Proxy :=
  let parts := tok.splitOn ':'
  { host := String.mk (parts.getD 0 []), port := String.mk (parts.getD 1 []),
    code := none, country := none, anonymous := none,
    type := ty, source := src }

/-- `_get_proxy_daily_proxies_parse_inner` (source lines 117-130): run the
inner pattern over the region, raise `InvalidHTMLError` when nothing is
captured, otherwise build the set of `Proxy` records. -/
def get_proxy_daily_proxies_parse_inner (text : List Char) (ty src : String) :
    Except PyError (Finset Proxy) :=
  if scanAll text = [] then Except.error PyError.invalidHTML
  else Except.ok (((scanAll text).map (mkDailyProxy ty src)).toFinset)

/-- A fetched text response: `response.ok` and `response.text`. -/
structure TextResponse where
  ok : Bool
  text : String

/-- `get_proxy_daily_http_proxies` (source lines 133-147). -/
def get_proxy_daily_http_proxies (resp : TextResponse) :
    Except PyError (Finset Proxy) :=
  if resp.ok = false then Except.error PyError.requestNotOK
  else
    match findSpan httpListMarker socks4ListMarker resp.text.toList with
    | none => Except.error PyError.invalidHTML
    | some span => get_proxy_daily_proxies_parse_inner span "http" "proxy-daily-http"

/-- `get_proxy_daily_socks4_proxies` (source lines 150-164). -/
def get_proxy_daily_socks4_proxies (resp : TextResponse) :
    Except PyError (Finset Proxy) :=
  if resp.ok = false then Except.error PyError.requestNotOK
  else
    match findSpan socks4ListMarker socks5ListMarker resp.text.toList with
    | none => Except.error PyError.invalidHTML
    | some span => get_proxy_daily_proxies_parse_inner span "socks4" "proxy-daily-socks4"

/-- `get_proxy_daily_socks5_proxies` (source lines 167-180): its pattern
has a start marker and a greedy `.*` but no end marker, so the region
runs to the end of the document. -/
def get_proxy_daily_socks5_proxies (resp : TextResponse) :
    Except PyError (Finset Proxy) :=
  if resp.ok = false then Except.error PyError.requestNotOK
  else
    match findSpanToEnd socks5ListMarker resp.text.toList with
    | none => Except.error PyError.invalidHTML
    | some span => get_proxy_daily_proxies_parse_inner span "socks5" "proxy-daily-socks5"

/-! ## Example documents and the marker-presence predicate (C5, C6) -/

/-- The marker-delimited document of the claim: the http heading, a
`host:port` line, the socks4 heading. -/
def dailyDoc : String := "Free Http/Https Proxy List\n1.2.3.4:8080\nFree Socks4 Proxy List"

/-- Both markers occur in the text, the second one at or after the end of
the first — the condition under which `M1 .* M2` has a match at all. -/
def orderedPresent (m1 m2 : List PatAtom) (l : List Char) : Prop :=
  ∃ i j, patMatchesAt m1 l i = true ∧ patMatchesAt m2 l j = true ∧ i + m1.length ≤ j

/-- A document whose markers are interrupted by newlines and tabs (the
`\s` atoms of the verbose patterns match those) and whose `.*` region
spans line breaks. -/
def crossLineDoc : String :=
  "Free\nHttp/Https\tProxy List\n7.7.7.7:80\nFree Socks4 Proxy\nList"

/-- `dailyDoc` with every letter lower-cased: the markers no longer
match, because literal pattern characters are compared case-sensitively. -/
def lowerCaseDoc : String :=
  "free http/https proxy list\n1.2.3.4:8080\nfree socks4 proxy list"

/-- A fetched document whose table row carries `Gopher` in the Version
column (cell 4) that `get_socks_proxies` copies into the record. -/
def gopherResponse : HtmlResponse :=
  ⟨true, ⟨some ⟨some [["1.2.3.4", "8080", "US", "United States", "Gopher",
    "elite proxy"]]⟩⟩⟩

/-- The record `get_us_proxies` builds from the full seven-cell row of
`fullRowResponse`. -/
def usEliteProxy : Proxy :=
  ⟨"1.2.3.4", "8080", some "us", some "united states", some true, "https",
    "us-proxy"⟩

/-- A well-formed seven-cell table row (the shape the free-proxy-list
family expects), with anonymity label `Elite Proxy` and Https cell `yes`. -/
def fullRowResponse : HtmlResponse :=
  ⟨true, ⟨some ⟨some [["1.2.3.4", "8080", "US", "United States", "Elite Proxy",
    "x", "yes"]]⟩⟩⟩

/-! ## Claim C9: the per-resource lock, as an interleaving semantics

`refresh` bodies run on threads; `self._lock` is a per-resource mutex, and
`with self._lock:` acquires it before the re-check and releases it on every
exit of the block (including an escaping exception).  The model below runs
two threads, each executing one `refresh(force=False)` call; thread `i`
operates on resource `a i`, so `a = fun i => i` places the threads on two
different resources (each with its own lock) and a constant `a` places both
on the same resource.  Each thread's program counter walks through the
statements of `refresh`:

* `start` — about to evaluate the fast-path guard (line 48);
* `waitL` — guard passed, blocked on `self._lock.acquire()` (line 51);
* `crit` — holding the lock, about to evaluate the re-check (line 53);
* `inFetch` — re-check passed, `self._func(self._url)` in flight (line 56):
  entering this state is what counts as one fetch;
* `done u` — call finished, returning `(u, …)`.

Clock reads take a step-local time `t`; time never runs backwards
(`s.now ≤ t`) and — modelling calls issued simultaneously, i.e. the whole
race resolving quickly relative to the refresh window — every clock read
stays below a bound `B`. -/
/-- Program counter of one in-flight `refresh(force=False)` call. -/
inductive TPC where
  | start : TPC
  | waitL : TPC
  | crit : TPC
  | inFetch : TPC
  | done : Bool → TPC
deriving DecidableEq

/-- One resource's shared state: `_last_refresh_time` and which thread (if
any) holds `_lock`. -/
structure RState where
  last : ℚ
  lockHeld : Option Bool

/-- Global state: both resources, the last observed clock value, both
program counters, and how many fetches have started per resource. -/
structure Sys where
  res : Bool → RState
  now : ℚ
  pcs : Bool → TPC
  fetches : Bool → Nat

/-- Pointwise update of a `Bool`-indexed map. -/
def updf {α : Type} (g : Bool → α) (i : Bool) (v : α) : Bool → α :=
  fun j => if j = i then v else g j

/-- Small-step transition relation.  `iv` is `_refresh_interval` (shared by
both resources), `a i` the resource thread `i` refreshes, `fr i` the result
`self._func` would return for thread `i`, `B` the bound on clock reads. -/
inductive Step (iv : ℚ) (a : Bool → Bool)
    (fr : Bool → Except PyError (Finset Proxy)) (B : ℚ) : Sys → Sys → Prop where
  | fastFail : ∀ (s : Sys) (i : Bool) (t : ℚ),
      s.pcs i = TPC.start → s.now ≤ t → t < B →
      (s.res (a i)).last + iv > t →
      Step iv a fr B s { s with pcs := updf s.pcs i (TPC.done false), now := t }
  | fastPass : ∀ (s : Sys) (i : Bool) (t : ℚ),
      s.pcs i = TPC.start → s.now ≤ t → t < B →
      ¬((s.res (a i)).last + iv > t) →
      Step iv a fr B s { s with pcs := updf s.pcs i TPC.waitL, now := t }
  | acquire : ∀ (s : Sys) (i : Bool),
      s.pcs i = TPC.waitL → (s.res (a i)).lockHeld = none →
      Step iv a fr B s { s with
        res := updf s.res (a i) ⟨(s.res (a i)).last, some i⟩,
        pcs := updf s.pcs i TPC.crit }
  | recheckFail : ∀ (s : Sys) (i : Bool) (t : ℚ),
      s.pcs i = TPC.crit → s.now ≤ t → t < B →
      ¬((s.res (a i)).last + iv ≤ t) →
      Step iv a fr B s { s with
        res := updf s.res (a i) ⟨(s.res (a i)).last, none⟩,
        pcs := updf s.pcs i (TPC.done false), now := t }
  | recheckPass : ∀ (s : Sys) (i : Bool) (t : ℚ),
      s.pcs i = TPC.crit → s.now ≤ t → t < B →
      (s.res (a i)).last + iv ≤ t →
      Step iv a fr B s { s with
        pcs := updf s.pcs i TPC.inFetch,
        fetches := updf s.fetches (a i) (s.fetches (a i) + 1), now := t }
  | fetchOk : ∀ (s : Sys) (i : Bool) (t : ℚ) (ps : Finset Proxy),
      s.pcs i = TPC.inFetch → fr i = Except.ok ps → s.now ≤ t → t < B →
      Step iv a fr B s { s with
        res := updf s.res (a i) ⟨t, none⟩,
        pcs := updf s.pcs i (TPC.done true), now := t }
  | fetchErr : ∀ (s : Sys) (i : Bool) (e : PyError),
      s.pcs i = TPC.inFetch → fr i = Except.error e →
      Step iv a fr B s { s with
        res := updf s.res (a i) ⟨(s.res (a i)).last, none⟩,
        pcs := updf s.pcs i (TPC.done false) }

/-- Initial state: both threads about to call `refresh`, both locks free,
no fetch started, clock at `n0`, resource timestamps `l0`. -/
def sysInit (l0 : Bool → ℚ) (n0 : ℚ) : Sys :=
  { res := fun r => ⟨l0 r, none⟩, now := n0,
    pcs := fun _ => TPC.start, fetches := fun _ => 0 }

/-- The inductive invariant: time advanced, lock discipline (a thread at
the re-check or fetching holds its resource's lock), at most one fetch
per resource so far, a fetched resource either still has the fetch in
flight or carries a post-`n0` timestamp, and a fetching thread's resource
has its fetch counted. -/
def SysInv (a : Bool → Bool) (n0 : ℚ) (s : Sys) : Prop :=
  n0 ≤ s.now ∧
  (∀ i : Bool, (s.pcs i = TPC.crit ∨ s.pcs i = TPC.inFetch) →
    (s.res (a i)).lockHeld = some i) ∧
  (∀ r : Bool, s.fetches r ≤ 1) ∧
  (∀ r : Bool, 1 ≤ s.fetches r →
    (∃ i, a i = r ∧ s.pcs i = TPC.inFetch) ∨ n0 ≤ (s.res r).last) ∧
  (∀ i : Bool, s.pcs i = TPC.inFetch → 1 ≤ s.fetches (a i))

/-- Concrete race on two *different* resources (`a = fun i => i`):
interval 10, both timestamps 0, clock at 100, bound 105.  Thread `false`
then thread `true` each pass the fast-path guard, acquire their own
resource's lock, and start fetching — reaching `c9S6`, where both parses
are in flight at once. -/
def c9S0 : Sys := sysInit (fun _ => 0) 100

def c9S1 : Sys := { c9S0 with pcs := updf c9S0.pcs false TPC.waitL, now := 100 }

def c9S2 : Sys := { c9S1 with pcs := updf c9S1.pcs true TPC.waitL, now := 100 }

def c9S3 : Sys := { c9S2 with
  res := updf c9S2.res false ⟨(c9S2.res false).last, some false⟩,
  pcs := updf c9S2.pcs false TPC.crit }

def c9S4 : Sys := { c9S3 with
  res := updf c9S3.res true ⟨(c9S3.res true).last, some true⟩,
  pcs := updf c9S3.pcs true TPC.crit }

def c9S5 : Sys := { c9S4 with
  pcs := updf c9S4.pcs false TPC.inFetch,
  fetches := updf c9S4.fetches false (c9S4.fetches false + 1), now := 100 }

def c9S6 : Sys := { c9S5 with
  pcs := updf c9S5.pcs true TPC.inFetch,
  fetches := updf c9S5.fetches true (c9S5.fetches true + 1), now := 100 }

/-! ## Helper lemmas, claim theorems and their witnesses -/

/-- Characterisation of a successful `refresh`: if the call returned
`(True, proxies)` then it took the fetching branch, so the parser result
was `Except.ok proxies`, the timestamp was set to `t3`, and the parser
was invoked. -/
theorem refresh_ok_true_elim (r : ProxyResource) (force : Bool) (t1 t2 t3 : ℚ)
    (f : Except PyError (Finset Proxy)) (ps : Finset Proxy)
    (h : (r.refresh force t1 t2 t3 f).res = Except.ok (true, some ps)) :
    r.refresh force t1 t2 t3 f =
      ⟨Except.ok (true, some ps), { r with last_refresh_time := t3 }, true⟩ ∧
    f = Except.ok ps := by
  cases f with
  | ok ps' =>
    unfold ProxyResource.refresh at h ⊢
    split_ifs at h ⊢ with h1 h2
    · simp at h
    · simp only [RefreshOutcome.mk.injEq] at h ⊢
      simp only [Except.ok.injEq, Prod.mk.injEq, Option.some.injEq] at h
      simp [h]
    · simp at h
  | error e =>
    unfold ProxyResource.refresh at h
    split_ifs at h with h1 h2
    · simp at h
    · cases e <;> simp at h
    · simp at h

/-! ## Claims about `ProxyResource.refresh` (C1, C2, C4, C10) and the
table parsers' uncaught `IndexError` (C3) -/

/-- C1: if a `refresh(force=False)` call succeeds and a second
`refresh(force=False)` on the same resource happens less than
`refresh_interval` seconds after the success timestamp `a3`, the second
call returns `(False, None)` on the fast path, leaves
`_last_refresh_time` unchanged and performs no fetch — so at most one
underlying fetch happens across the two calls (exactly the first one). -/
theorem refresh_second_call_within_window_throttled
    (r : ProxyResource) (a1 a2 a3 b1 b2 b3 : ℚ)
    (f1 f2 : Except PyError (Finset Proxy)) (ps : Finset Proxy)
    (h1 : (r.refresh false a1 a2 a3 f1).res = Except.ok (true, some ps))
    (hb : b1 < a3 + r.refresh_interval) :
    ((r.refresh false a1 a2 a3 f1).state.refresh false b1 b2 b3 f2).res
        = Except.ok (false, none) ∧
    ((r.refresh false a1 a2 a3 f1).state.refresh false b1 b2 b3 f2).state
        = (r.refresh false a1 a2 a3 f1).state ∧
    ((r.refresh false a1 a2 a3 f1).state.refresh false b1 b2 b3 f2).fetched
        = false ∧
    (r.refresh false a1 a2 a3 f1).fetched = true := by
  obtain ⟨heq, -⟩ := refresh_ok_true_elim r false a1 a2 a3 f1 ps h1
  rw [heq]
  have hg : ({ r with last_refresh_time := a3 } : ProxyResource).last_refresh_time
      + ({ r with last_refresh_time := a3 } : ProxyResource).refresh_interval > b1 := by
    simpa using hb
  simp [ProxyResource.refresh, hg]

/-- Closed instance of `refresh_second_call_within_window_throttled`:
interval 10, first call succeeding at time 100, second call at time 105. -/
theorem refresh_second_call_within_window_throttled_witness :
    (((ProxyResource.init "u" 10).refresh false 100 100 100
        (Except.ok ∅)).state.refresh false 105 105 105 (Except.ok ∅)).res
      = Except.ok (false, none) ∧
    ((ProxyResource.init "u" 10).refresh false 100 100 100
        (Except.ok ∅)).fetched = true := by
  have h := refresh_second_call_within_window_throttled
    (ProxyResource.init "u" 10) 100 100 100 105 105 105
    (Except.ok ∅) (Except.ok ∅) ∅
    (by norm_num [ProxyResource.refresh, ProxyResource.init])
    (by norm_num [ProxyResource.init])
  exact ⟨h.1, h.2.2.2⟩

/-- C2: when the invoked parser raises `InvalidHTMLError` or
`RequestNotOKError`, `refresh` catches it on every path: the call returns
`(False, None)` (no exception escapes) and the resource state — in
particular `_last_refresh_time` — is unchanged. -/
theorem refresh_swallows_parser_failures (r : ProxyResource) (force : Bool)
    (t1 t2 t3 : ℚ) (e : PyError)
    (h : e = PyError.invalidHTML ∨ e = PyError.requestNotOK) :
    (r.refresh force t1 t2 t3 (Except.error e)).res = Except.ok (false, none) ∧
    (r.refresh force t1 t2 t3 (Except.error e)).state = r := by
  rcases h with h | h <;> subst h <;>
    · unfold ProxyResource.refresh
      split_ifs <;> exact ⟨rfl, rfl⟩

/-- Closed instance of `refresh_swallows_parser_failures` for both caught
failure kinds at a concrete resource and time. -/
theorem refresh_swallows_parser_failures_witness :
    ((ProxyResource.init "u" 10).refresh false 100 100 100
        (Except.error PyError.invalidHTML)).res = Except.ok (false, none) ∧
    ((ProxyResource.init "u" 10).refresh false 100 100 100
        (Except.error PyError.requestNotOK)).state = ProxyResource.init "u" 10 := by
  exact ⟨(refresh_swallows_parser_failures _ false 100 100 100 _ (Or.inl rfl)).1,
    (refresh_swallows_parser_failures _ false 100 100 100 _ (Or.inr rfl)).2⟩

/-- C4: `refresh(force=True)` always invokes the parser, whatever the
clock says; on parser success the timestamp is set to the current time
`t3` and `(True, proxies)` is returned, on parser failure the state is
unchanged. -/
theorem refresh_force_always_fetches (r : ProxyResource) (t1 t2 t3 : ℚ)
    (f : Except PyError (Finset Proxy)) :
    (r.refresh true t1 t2 t3 f).fetched = true ∧
    (∀ ps, f = Except.ok ps →
      (r.refresh true t1 t2 t3 f).state.last_refresh_time = t3 ∧
      (r.refresh true t1 t2 t3 f).res = Except.ok (true, some ps)) ∧
    (∀ e, f = Except.error e → (r.refresh true t1 t2 t3 f).state = r) := by
  unfold ProxyResource.refresh
  have hA : ¬(true = false ∧ r.last_refresh_time + r.refresh_interval > t1) := by
    simp
  rw [if_neg hA, if_pos (Or.inl rfl)]
  cases f with
  | ok ps =>
    refine ⟨rfl, ?_, ?_⟩
    · intro ps' hps'
      rw [Except.ok.injEq] at hps'
      subst hps'
      exact ⟨rfl, rfl⟩
    · intro e he
      exact absurd he (by simp)
  | error e =>
    refine ⟨?_, ?_, ?_⟩
    · cases e <;> rfl
    · intro ps hps
      exact absurd hps (by simp)
    · intro e' he'
      cases e <;> rfl

/-- Closed instance of `refresh_force_always_fetches`: both the success
branch (timestamp updated to the fetch time) and a caught-failure branch
(state unchanged), at concrete inputs. -/
theorem refresh_force_always_fetches_witness :
    ((ProxyResource.init "u" 10).refresh true 1 2 3 (Except.ok ∅)).fetched = true ∧
    ((ProxyResource.init "u" 10).refresh true 1 2 3
        (Except.ok ∅)).state.last_refresh_time = 3 ∧
    ((ProxyResource.init "u" 10).refresh true 1 2 3
        (Except.error PyError.invalidHTML)).state = ProxyResource.init "u" 10 := by
  exact ⟨(refresh_force_always_fetches _ 1 2 3 _).1,
    ((refresh_force_always_fetches _ 1 2 3 _).2.1 ∅ rfl).1,
    (refresh_force_always_fetches _ 1 2 3 _).2.2 PyError.invalidHTML rfl⟩

/-- C10: a freshly constructed `ProxyResource` has `_last_refresh_time`
`0`, so as soon as the wall clock is at least `refresh_interval` (and the
clock does not run backwards between the two guard reads), the first
`refresh(force=False)` passes both time guards and invokes the parser. -/
theorem fresh_resource_first_refresh (url : String) (iv t1 t2 t3 : ℚ)
    (f : Except PyError (Finset Proxy)) (h1 : iv ≤ t1) (h2 : t1 ≤ t2) :
    (ProxyResource.init url iv).last_refresh_time = 0 ∧
    ((ProxyResource.init url iv).refresh false t1 t2 t3 f).fetched = true := by
  refine ⟨rfl, ?_⟩
  simp only [ProxyResource.refresh, ProxyResource.init]
  split_ifs with hA hB
  · obtain ⟨-, hgt⟩ := hA
    rw [zero_add] at hgt
    exact absurd h1 (not_le.mpr hgt)
  · cases f with
    | ok ps => rfl
    | error e => cases e <;> rfl
  · exact absurd (Or.inr (by rw [zero_add]; exact h1.trans h2)) hB

/-- Closed instance of `fresh_resource_first_refresh` at interval 5 and
clock 7 ≤ 8. -/
theorem fresh_resource_first_refresh_witness :
    (ProxyResource.init "u" 5).last_refresh_time = 0 ∧
    ((ProxyResource.init "u" 5).refresh false 7 8 9 (Except.ok ∅)).fetched = true :=
  fresh_resource_first_refresh "u" 5 7 8 9 (Except.ok ∅)
    (by norm_num) (by norm_num)

/-- C3 (code bug): on a row with a missing cell the table parsers raise
`IndexError` (`data[6]` on a five-cell row), which the
`except (AttributeError, KeyError)` guard does not catch, so the parse
terminates with an exception other than `InvalidHTMLError` — and that
exception also escapes `refresh`, whose `try` only catches
`InvalidHTMLError` and `RequestNotOKError`. -/
theorem table_parser_short_row_uncaught :
    get_us_proxies shortRowResponse = Except.error PyError.indexError ∧
    get_anonymous_proxies shortRowResponse = Except.error PyError.indexError ∧
    (∀ (r : ProxyResource) (t1 t2 t3 : ℚ),
      (ProxyResource.refresh r true t1 t2 t3
          (Except.error PyError.indexError)).res
        = Except.error PyError.indexError) := by
  refine ⟨rfl, rfl, ?_⟩
  intro r t1 t2 t3
  unfold ProxyResource.refresh
  have hA : ¬(true = false ∧ r.last_refresh_time + r.refresh_interval > t1) := by
    simp
  rw [if_neg hA, if_pos (Or.inl rfl)]

theorem segMatch_rest_lt (sep : Char) (l t r : List Char)
    (h : segMatch sep l = some (t, r)) : r.length < l.length := by
  unfold segMatch at h
  split_ifs at h with hk
  obtain ⟨hk1, hk2, hk3⟩ := hk
  obtain ⟨hlt, -⟩ := List.get?_eq_some.mp hk3
  simp only [Option.some.injEq, Prod.mk.injEq] at h
  rw [← h.2, List.length_drop]
  omega

theorem matchIpPort_rest_lt (l t r : List Char)
    (h : matchIpPort l = some (t, r)) : r.length < l.length := by
  unfold matchIpPort at h
  cases h1 : segMatch '.' l with
  | none => rw [h1] at h; exact absurd h (by simp)
  | some p1 =>
    obtain ⟨s1, r1⟩ := p1
    rw [h1] at h
    simp only [Option.some_bind] at h
    cases h2 : segMatch '.' r1 with
    | none => rw [h2] at h; exact absurd h (by simp)
    | some p2 =>
      obtain ⟨s2, r2⟩ := p2
      rw [h2] at h
      simp only [Option.some_bind] at h
      cases h3 : segMatch '.' r2 with
      | none => rw [h3] at h; exact absurd h (by simp)
      | some p3 =>
        obtain ⟨s3, r3⟩ := p3
        rw [h3] at h
        simp only [Option.some_bind] at h
        cases h4 : segMatch ':' r3 with
        | none => rw [h4] at h; exact absurd h (by simp)
        | some p4 =>
          obtain ⟨s4, r4⟩ := p4
          rw [h4] at h
          simp only [Option.some_bind] at h
          split_ifs at h with hk
          simp only [Option.some.injEq, Prod.mk.injEq] at h
          have hr : r = r4.drop (min 5 (digitCount r4)) := h.2.symm
          have c4 := segMatch_rest_lt ':' r3 s4 r4 h4
          have c3 := segMatch_rest_lt '.' r2 s3 r3 h3
          have c2 := segMatch_rest_lt '.' r1 s2 r2 h2
          have c1 := segMatch_rest_lt '.' l s1 r1 h1
          have hd : (r4.drop (min 5 (digitCount r4))).length ≤ r4.length := by
            rw [List.length_drop]; omega
          rw [hr]
          omega

/-- The fuel of `scanAllAux` is irrelevant as long as it dominates the
text length — so `scanAll` computes the fuel-free left-to-right scan. -/
theorem scanAllAux_fuel_irrelevant :
    ∀ (fuel1 fuel2 : Nat) (l : List Char), l.length ≤ fuel1 → l.length ≤ fuel2 →
      scanAllAux fuel1 l = scanAllAux fuel2 l := by
  intro fuel1
  induction fuel1 using Nat.strong_induction_on with
  | _ fuel1 ih =>
    intro fuel2 l h1 h2
    cases l with
    | nil => cases fuel1 <;> cases fuel2 <;> rfl
    | cons c cs =>
      cases fuel1 with
      | zero => simp at h1
      | succ f1 =>
        cases fuel2 with
        | zero => simp at h2
        | succ f2 =>
          simp only [scanAllAux]
          simp only [List.length_cons] at h1 h2
          cases hm : matchIpPort (c :: cs) with
          | none =>
            exact ih f1 (by omega) f2 cs (by omega) (by omega)
          | some p =>
            obtain ⟨t, r⟩ := p
            have hlt := matchIpPort_rest_lt (c :: cs) t r hm
            simp only [List.length_cons] at hlt
            exact congrArg (t :: ·) (ih f1 (by omega) f2 r (by omega) (by omega))

/-- C5: on `dailyDoc` the http-region parser extracts exactly the single
record `1.2.3.4:8080` with scheme `http` (host and port are the two
halves of the captured `host:port` text), while the socks4-region parser —
whose region would run from the socks4 heading to a socks5 heading that
this document does not contain — extracts nothing: it fails with
`InvalidHTMLError`, so no records are produced from that span. -/
theorem proxy_daily_http_region_single_record :
    get_proxy_daily_http_proxies ⟨true, dailyDoc⟩ =
      Except.ok {⟨"1.2.3.4", "8080", none, none, none, "http", "proxy-daily-http"⟩} ∧
    get_proxy_daily_socks4_proxies ⟨true, dailyDoc⟩ = Except.error PyError.invalidHTML :=
  ⟨rfl, rfl⟩

theorem findSpan_some_ordered (m1 m2 : List PatAtom) (l : List Char)
    (s : List Char) (h : findSpan m1 m2 l = some s) : orderedPresent m1 m2 l := by
  unfold findSpan at h
  cases hf : firstSpanStart m1 m2 l with
  | none => rw [hf] at h; exact absurd h (by simp)
  | some i =>
    rw [hf] at h
    simp only [Option.some_bind] at h
    cases hl : lastStartFrom m2 l (i + m1.length) with
    | none => rw [hl] at h; exact absurd h (by simp)
    | some j =>
      have hp := List.find?_some hf
      rw [Bool.and_eq_true] at hp
      have hj : j ∈ (List.range (l.length + 1)).filter
          (fun j => decide (i + m1.length ≤ j) && patMatchesAt m2 l j) :=
        List.mem_of_getLast?_eq_some hl
      rw [List.mem_filter, Bool.and_eq_true] at hj
      exact ⟨i, j, hp.1, hj.2.2, of_decide_eq_true hj.2.1⟩

theorem patMatchesAt_nil_of_ne (m : List PatAtom) (hm : m ≠ []) (i : Nat) :
    patMatchesAt m ([] : List Char) i = false := by
  cases m with
  | nil => exact absurd rfl hm
  | cons a p => simp [patMatchesAt, List.drop_nil, patMatch]

theorem not_orderedPresent_nil (m1 m2 : List PatAtom) (hm : m1 ≠ []) :
    ¬ orderedPresent m1 m2 ([] : List Char) := by
  rintro ⟨i, j, h1, -, -⟩
  rw [patMatchesAt_nil_of_ne m1 hm i] at h1
  exact Bool.false_ne_true h1

/-- C6: the marker scan of the proxy-daily parsers fails closed.  For the
two-marker parsers (http, socks4), whenever the ordered pair of literal
markers is absent from the document the parser raises `InvalidHTMLError`
rather than parsing any fallback region; the socks5 parser, whose region
is bounded by its single start marker and the end of the document, raises
`InvalidHTMLError` whenever that marker is absent.  The scan matches
markers across line breaks (`crossLineDoc` parses, its `\s` atoms
matching newlines and tabs and its region spanning lines) and is
case-sensitive (`lowerCaseDoc`, the same document lower-cased, is
rejected). -/
theorem daily_markers_fail_closed :
    (∀ text : String, ¬ orderedPresent httpListMarker socks4ListMarker text.toList →
      get_proxy_daily_http_proxies ⟨true, text⟩ = Except.error PyError.invalidHTML) ∧
    (∀ text : String, ¬ orderedPresent socks4ListMarker socks5ListMarker text.toList →
      get_proxy_daily_socks4_proxies ⟨true, text⟩ = Except.error PyError.invalidHTML) ∧
    (∀ text : String, (∀ i : Nat, patMatchesAt socks5ListMarker text.toList i = false) →
      get_proxy_daily_socks5_proxies ⟨true, text⟩ = Except.error PyError.invalidHTML) ∧
    get_proxy_daily_http_proxies ⟨true, crossLineDoc⟩ =
      Except.ok {⟨"7.7.7.7", "80", none, none, none, "http", "proxy-daily-http"⟩} ∧
    get_proxy_daily_http_proxies ⟨true, lowerCaseDoc⟩ = Except.error PyError.invalidHTML := by
  refine ⟨?_, ?_, ?_, rfl, rfl⟩
  · intro text hno
    unfold get_proxy_daily_http_proxies
    rw [if_neg (by simp)]
    cases hs : findSpan httpListMarker socks4ListMarker text.toList with
    | none => rfl
    | some s => exact absurd (findSpan_some_ordered _ _ _ _ hs) hno
  · intro text hno
    unfold get_proxy_daily_socks4_proxies
    rw [if_neg (by simp)]
    cases hs : findSpan socks4ListMarker socks5ListMarker text.toList with
    | none => rfl
    | some s => exact absurd (findSpan_some_ordered _ _ _ _ hs) hno
  · intro text habs
    unfold get_proxy_daily_socks5_proxies findSpanToEnd
    rw [if_neg (by simp)]
    have hnone : (List.range (text.toList.length + 1)).find?
        (fun i => patMatchesAt socks5ListMarker text.toList i) = none :=
      List.find?_eq_none.mpr (fun i _ => by rw [habs i]; exact Bool.false_ne_true)
    rw [hnone]
    rfl

/-- Closed instance of `daily_markers_fail_closed`: the empty document
contains no markers, so all three parsers reject it. -/
theorem daily_markers_fail_closed_witness :
    get_proxy_daily_http_proxies ⟨true, ""⟩ = Except.error PyError.invalidHTML ∧
    get_proxy_daily_socks4_proxies ⟨true, ""⟩ = Except.error PyError.invalidHTML ∧
    get_proxy_daily_socks5_proxies ⟨true, ""⟩ = Except.error PyError.invalidHTML := by
  refine ⟨daily_markers_fail_closed.1 "" ?_, daily_markers_fail_closed.2.1 "" ?_,
    daily_markers_fail_closed.2.2.1 "" ?_⟩
  · exact not_orderedPresent_nil _ _ (by decide)
  · exact not_orderedPresent_nil _ _ (by decide)
  · intro i
    exact patMatchesAt_nil_of_ne _ (by decide) i

/-! ## Claim C7: which parsers keep the scheme in the closed set -/
theorem except_bind_ok {α β : Type} (a : α) (f : α → Except PyError β) :
    Except.bind (Except.ok a) f = f a := rfl

theorem except_bind_error {α β : Type} (e : PyError)
    (f : α → Except PyError β) :
    Except.bind (Except.error e : Except PyError α) f = Except.error e := rfl

/-- Every record produced by the row loop comes from one of the rows. -/
theorem rowsMapM_ok_mem (mkRow : List String → Except PyError Proxy) :
    ∀ (rows : List (List String)) (ps : List Proxy),
      rowsMapM mkRow rows = Except.ok ps →
      ∀ p ∈ ps, ∃ row ∈ rows, mkRow row = Except.ok p := by
  intro rows
  induction rows with
  | nil =>
    intro ps h p hp
    unfold rowsMapM at h
    rw [Except.ok.injEq] at h
    subst h
    simp at hp
  | cons row rest ih =>
    intro ps h p hp
    unfold rowsMapM at h
    cases hr : mkRow row with
    | error e => rw [hr, except_bind_error] at h; exact absurd h (by simp)
    | ok p0 =>
      rw [hr, except_bind_ok] at h
      cases hrest : rowsMapM mkRow rest with
      | error e => rw [hrest, except_bind_error] at h; exact absurd h (by simp)
      | ok ps0 =>
        rw [hrest, except_bind_ok, Except.ok.injEq] at h
        subst h
        cases List.mem_cons.mp hp with
        | inl heq =>
          exact ⟨row, List.mem_cons_self row rest, by rw [heq]; exact hr⟩
        | inr hmem =>
          obtain ⟨row', hrow', hmk⟩ := ih ps0 hrest p hmem
          exact ⟨row', List.mem_cons_of_mem _ hrow', hmk⟩

/-- `catchSoup` only transforms failures: a successful parse passes
through unchanged. -/
theorem catchSoup_ok_elim (x : Except PyError (Finset Proxy)) (S : Finset Proxy)
    (h : catchSoup x = Except.ok S) : x = Except.ok S := by
  cases x with
  | ok S' => simpa [catchSoup] using h
  | error e => cases e <;> simp [catchSoup] at h

/-- Every record in a successful table parse comes from applying the row
function to some row. -/
theorem tableScrape_ok_mem (mkRow : List String → Except PyError Proxy)
    (resp : HtmlResponse) (S : Finset Proxy) (p : Proxy)
    (h : tableScrape mkRow resp = Except.ok S) (hp : p ∈ S) :
    ∃ data, mkRow data = Except.ok p := by
  unfold tableScrape at h
  split_ifs at h with hok
  have h2 := catchSoup_ok_elim _ _ h
  cases hr : tableRows resp.doc with
  | error e => rw [hr, except_bind_error] at h2; exact absurd h2 (by simp)
  | ok rows =>
    rw [hr, except_bind_ok] at h2
    cases hm : rowsMapM mkRow rows with
    | error e => rw [hm, except_bind_error] at h2; exact absurd h2 (by simp)
    | ok ps =>
      rw [hm, except_bind_ok, Except.ok.injEq] at h2
      subst h2
      rw [List.mem_toFinset] at hp
      obtain ⟨row, -, hmk⟩ := rowsMapM_ok_mem mkRow rows ps hm p hp
      exact ⟨row, hmk⟩

/-- The `free-proxy-list`-style row function only emits `https`/`http`. -/
theorem mkRowFPL_type (src : String) (data : List String) (p : Proxy)
    (h : mkRowFPL src data = Except.ok p) :
    p.type = "https" ∨ p.type = "http" := by
  unfold mkRowFPL at h
  cases e0 : pyIndex data 0 with
  | error e => rw [e0, except_bind_error] at h; exact absurd h (by simp)
  | ok host =>
  rw [e0, except_bind_ok] at h
  cases e1 : pyIndex data 1 with
  | error e => rw [e1, except_bind_error] at h; exact absurd h (by simp)
  | ok port =>
  rw [e1, except_bind_ok] at h
  cases e2 : pyIndex data 2 with
  | error e => rw [e2, except_bind_error] at h; exact absurd h (by simp)
  | ok code =>
  rw [e2, except_bind_ok] at h
  cases e3 : pyIndex data 3 with
  | error e => rw [e3, except_bind_error] at h; exact absurd h (by simp)
  | ok country =>
  rw [e3, except_bind_ok] at h
  cases e4 : pyIndex data 4 with
  | error e => rw [e4, except_bind_error] at h; exact absurd h (by simp)
  | ok anon =>
  rw [e4, except_bind_ok] at h
  cases e6 : pyIndex data 6 with
  | error e => rw [e6, except_bind_error] at h; exact absurd h (by simp)
  | ok ver =>
  rw [e6, except_bind_ok, Except.ok.injEq] at h
  subst h
  cases hv : pyLower ver == "yes" with
  | true => simp [hv]
  | false => simp [hv]

/-- The ssl row function always emits `https`. -/
theorem mkRowSSL_type (src : String) (data : List String) (p : Proxy)
    (h : mkRowSSL src data = Except.ok p) : p.type = "https" := by
  unfold mkRowSSL at h
  cases e0 : pyIndex data 0 with
  | error e => rw [e0, except_bind_error] at h; exact absurd h (by simp)
  | ok host =>
  rw [e0, except_bind_ok] at h
  cases e1 : pyIndex data 1 with
  | error e => rw [e1, except_bind_error] at h; exact absurd h (by simp)
  | ok port =>
  rw [e1, except_bind_ok] at h
  cases e2 : pyIndex data 2 with
  | error e => rw [e2, except_bind_error] at h; exact absurd h (by simp)
  | ok code =>
  rw [e2, except_bind_ok] at h
  cases e3 : pyIndex data 3 with
  | error e => rw [e3, except_bind_error] at h; exact absurd h (by simp)
  | ok country =>
  rw [e3, except_bind_ok] at h
  cases e4 : pyIndex data 4 with
  | error e => rw [e4, except_bind_error] at h; exact absurd h (by simp)
  | ok anon =>
  rw [e4, except_bind_ok, Except.ok.injEq] at h
  subst h
  rfl

/-- Every record of a successful proxy-daily inner parse carries the
region's hard-coded scheme. -/
theorem parse_inner_ok_type (text : List Char) (ty src : String)
    (S : Finset Proxy) (p : Proxy)
    (h : get_proxy_daily_proxies_parse_inner text ty src = Except.ok S)
    (hp : p ∈ S) : p.type = ty := by
  unfold get_proxy_daily_proxies_parse_inner at h
  split_ifs at h with ht
  rw [Except.ok.injEq] at h
  subst h
  rw [List.mem_toFinset] at hp
  obtain ⟨tok, -, htok⟩ := List.mem_map.mp hp
  rw [← htok]
  rfl

theorem daily_http_ok_type (resp : TextResponse) (S : Finset Proxy) (p : Proxy)
    (h : get_proxy_daily_http_proxies resp = Except.ok S) (hp : p ∈ S) :
    p.type = "http" := by
  unfold get_proxy_daily_http_proxies at h
  split_ifs at h with hok
  cases hs : findSpan httpListMarker socks4ListMarker resp.text.toList with
  | none => rw [hs] at h; exact absurd h (by simp)
  | some span => rw [hs] at h; exact parse_inner_ok_type _ _ _ _ _ h hp

theorem daily_socks4_ok_type (resp : TextResponse) (S : Finset Proxy) (p : Proxy)
    (h : get_proxy_daily_socks4_proxies resp = Except.ok S) (hp : p ∈ S) :
    p.type = "socks4" := by
  unfold get_proxy_daily_socks4_proxies at h
  split_ifs at h with hok
  cases hs : findSpan socks4ListMarker socks5ListMarker resp.text.toList with
  | none => rw [hs] at h; exact absurd h (by simp)
  | some span => rw [hs] at h; exact parse_inner_ok_type _ _ _ _ _ h hp

theorem daily_socks5_ok_type (resp : TextResponse) (S : Finset Proxy) (p : Proxy)
    (h : get_proxy_daily_socks5_proxies resp = Except.ok S) (hp : p ∈ S) :
    p.type = "socks5" := by
  unfold get_proxy_daily_socks5_proxies at h
  split_ifs at h with hok
  cases hs : findSpanToEnd socks5ListMarker resp.text.toList with
  | none => rw [hs] at h; exact absurd h (by simp)
  | some span => rw [hs] at h; exact parse_inner_ok_type _ _ _ _ _ h hp

/-- C7 counterexample: `get_socks_proxies` accepts `gopherResponse` and
produces a record whose scheme is `gopher` — the lower-cased Version cell
copied verbatim — which is not in the closed set
`{http, https, socks4, socks5}`. -/
theorem socks_scheme_not_closed_counterexample :
    get_socks_proxies gopherResponse =
      Except.ok {⟨"1.2.3.4", "8080", some "us", some "united states",
        some true, "gopher", "socks-proxy"⟩} ∧
    (["http", "https", "socks4", "socks5"].contains "gopher") = false :=
  ⟨rfl, rfl⟩

/-- C7 amended: every parser other than `get_socks_proxies` only
constructs records whose scheme is in the closed set
`{http, https, socks4, socks5}`; `get_socks_proxies` copies the row's
lower-cased Version cell verbatim, so its records' scheme lies in the
closed set only when the source's label does. -/
theorem nonsocks_parsers_scheme_closed :
    (∀ (resp : HtmlResponse) (S : Finset Proxy) (p : Proxy),
      get_anonymous_proxies resp = Except.ok S → p ∈ S →
      p.type = "http" ∨ p.type = "https" ∨ p.type = "socks4" ∨ p.type = "socks5") ∧
    (∀ (resp : HtmlResponse) (S : Finset Proxy) (p : Proxy),
      get_free_proxy_list_proxies resp = Except.ok S → p ∈ S →
      p.type = "http" ∨ p.type = "https" ∨ p.type = "socks4" ∨ p.type = "socks5") ∧
    (∀ (resp : HtmlResponse) (S : Finset Proxy) (p : Proxy),
      get_uk_proxies resp = Except.ok S → p ∈ S →
      p.type = "http" ∨ p.type = "https" ∨ p.type = "socks4" ∨ p.type = "socks5") ∧
    (∀ (resp : HtmlResponse) (S : Finset Proxy) (p : Proxy),
      get_us_proxies resp = Except.ok S → p ∈ S →
      p.type = "http" ∨ p.type = "https" ∨ p.type = "socks4" ∨ p.type = "socks5") ∧
    (∀ (resp : HtmlResponse) (S : Finset Proxy) (p : Proxy),
      get_ssl_proxies resp = Except.ok S → p ∈ S →
      p.type = "http" ∨ p.type = "https" ∨ p.type = "socks4" ∨ p.type = "socks5") ∧
    (∀ (resp : TextResponse) (S : Finset Proxy) (p : Proxy),
      get_proxy_daily_http_proxies resp = Except.ok S → p ∈ S →
      p.type = "http" ∨ p.type = "https" ∨ p.type = "socks4" ∨ p.type = "socks5") ∧
    (∀ (resp : TextResponse) (S : Finset Proxy) (p : Proxy),
      get_proxy_daily_socks4_proxies resp = Except.ok S → p ∈ S →
      p.type = "http" ∨ p.type = "https" ∨ p.type = "socks4" ∨ p.type = "socks5") ∧
    (∀ (resp : TextResponse) (S : Finset Proxy) (p : Proxy),
      get_proxy_daily_socks5_proxies resp = Except.ok S → p ∈ S →
      p.type = "http" ∨ p.type = "https" ∨ p.type = "socks4" ∨ p.type = "socks5") := by
  refine ⟨?_, ?_, ?_, ?_, ?_, ?_, ?_, ?_⟩
  · intro resp S p h hp
    obtain ⟨data, hmk⟩ := tableScrape_ok_mem _ _ _ _ h hp
    rcases mkRowFPL_type _ _ _ hmk with ht | ht
    · exact Or.inr (Or.inl ht)
    · exact Or.inl ht
  · intro resp S p h hp
    obtain ⟨data, hmk⟩ := tableScrape_ok_mem _ _ _ _ h hp
    rcases mkRowFPL_type _ _ _ hmk with ht | ht
    · exact Or.inr (Or.inl ht)
    · exact Or.inl ht
  · intro resp S p h hp
    obtain ⟨data, hmk⟩ := tableScrape_ok_mem _ _ _ _ h hp
    rcases mkRowFPL_type _ _ _ hmk with ht | ht
    · exact Or.inr (Or.inl ht)
    · exact Or.inl ht
  · intro resp S p h hp
    obtain ⟨data, hmk⟩ := tableScrape_ok_mem _ _ _ _ h hp
    rcases mkRowFPL_type _ _ _ hmk with ht | ht
    · exact Or.inr (Or.inl ht)
    · exact Or.inl ht
  · intro resp S p h hp
    obtain ⟨data, hmk⟩ := tableScrape_ok_mem _ _ _ _ h hp
    exact Or.inr (Or.inl (mkRowSSL_type _ _ _ hmk))
  · intro resp S p h hp
    exact Or.inl (daily_http_ok_type _ _ _ h hp)
  · intro resp S p h hp
    exact Or.inr (Or.inr (Or.inl (daily_socks4_ok_type _ _ _ h hp)))
  · intro resp S p h hp
    exact Or.inr (Or.inr (Or.inr (daily_socks5_ok_type _ _ _ h hp)))

/-- Closed instance of `nonsocks_parsers_scheme_closed`: the record
`get_us_proxies` accepts from `fullRowResponse` has its scheme in the
closed set. -/
theorem nonsocks_parsers_scheme_closed_witness :
    usEliteProxy.type = "http" ∨ usEliteProxy.type = "https" ∨
    usEliteProxy.type = "socks4" ∨ usEliteProxy.type = "socks5" :=
  nonsocks_parsers_scheme_closed.2.2.2.1 fullRowResponse {usEliteProxy}
    usEliteProxy rfl (Finset.mem_singleton_self usEliteProxy)

/-! ## Claim C8: derivation of the anonymity flag -/
theorem mkRowFPL_anonymous (src : String) (data : List String) (p : Proxy)
    (h : mkRowFPL src data = Except.ok p) :
    ∃ lab, pyIndex data 4 = Except.ok lab ∧
      (p.anonymous = some true ↔
        (pyLower lab = "anonymous" ∨ pyLower lab = "elite proxy")) := by
  unfold mkRowFPL at h
  cases e0 : pyIndex data 0 with
  | error e => rw [e0, except_bind_error] at h; exact absurd h (by simp)
  | ok host =>
  rw [e0, except_bind_ok] at h
  cases e1 : pyIndex data 1 with
  | error e => rw [e1, except_bind_error] at h; exact absurd h (by simp)
  | ok port =>
  rw [e1, except_bind_ok] at h
  cases e2 : pyIndex data 2 with
  | error e => rw [e2, except_bind_error] at h; exact absurd h (by simp)
  | ok code =>
  rw [e2, except_bind_ok] at h
  cases e3 : pyIndex data 3 with
  | error e => rw [e3, except_bind_error] at h; exact absurd h (by simp)
  | ok country =>
  rw [e3, except_bind_ok] at h
  cases e4 : pyIndex data 4 with
  | error e => rw [e4, except_bind_error] at h; exact absurd h (by simp)
  | ok anon =>
  rw [e4, except_bind_ok] at h
  cases e6 : pyIndex data 6 with
  | error e => rw [e6, except_bind_error] at h; exact absurd h (by simp)
  | ok ver =>
  rw [e6, except_bind_ok, Except.ok.injEq] at h
  subst h
  refine ⟨anon, rfl, ?_⟩
  simp [Bool.or_eq_true, beq_iff_eq]

theorem mkRowSSL_anonymous (src : String) (data : List String) (p : Proxy)
    (h : mkRowSSL src data = Except.ok p) :
    ∃ lab, pyIndex data 4 = Except.ok lab ∧
      (p.anonymous = some true ↔
        (pyLower lab = "anonymous" ∨ pyLower lab = "elite proxy")) := by
  unfold mkRowSSL at h
  cases e0 : pyIndex data 0 with
  | error e => rw [e0, except_bind_error] at h; exact absurd h (by simp)
  | ok host =>
  rw [e0, except_bind_ok] at h
  cases e1 : pyIndex data 1 with
  | error e => rw [e1, except_bind_error] at h; exact absurd h (by simp)
  | ok port =>
  rw [e1, except_bind_ok] at h
  cases e2 : pyIndex data 2 with
  | error e => rw [e2, except_bind_error] at h; exact absurd h (by simp)
  | ok code =>
  rw [e2, except_bind_ok] at h
  cases e3 : pyIndex data 3 with
  | error e => rw [e3, except_bind_error] at h; exact absurd h (by simp)
  | ok country =>
  rw [e3, except_bind_ok] at h
  cases e4 : pyIndex data 4 with
  | error e => rw [e4, except_bind_error] at h; exact absurd h (by simp)
  | ok anon =>
  rw [e4, except_bind_ok, Except.ok.injEq] at h
  subst h
  refine ⟨anon, rfl, ?_⟩
  simp [Bool.or_eq_true, beq_iff_eq]

theorem mkRowSocks_anonymous (src : String) (data : List String) (p : Proxy)
    (h : mkRowSocks src data = Except.ok p) :
    ∃ lab, pyIndex data 5 = Except.ok lab ∧
      (p.anonymous = some true ↔
        (pyLower lab = "anonymous" ∨ pyLower lab = "elite proxy")) := by
  unfold mkRowSocks at h
  cases e0 : pyIndex data 0 with
  | error e => rw [e0, except_bind_error] at h; exact absurd h (by simp)
  | ok host =>
  rw [e0, except_bind_ok] at h
  cases e1 : pyIndex data 1 with
  | error e => rw [e1, except_bind_error] at h; exact absurd h (by simp)
  | ok port =>
  rw [e1, except_bind_ok] at h
  cases e2 : pyIndex data 2 with
  | error e => rw [e2, except_bind_error] at h; exact absurd h (by simp)
  | ok code =>
  rw [e2, except_bind_ok] at h
  cases e3 : pyIndex data 3 with
  | error e => rw [e3, except_bind_error] at h; exact absurd h (by simp)
  | ok country =>
  rw [e3, except_bind_ok] at h
  cases e4 : pyIndex data 4 with
  | error e => rw [e4, except_bind_error] at h; exact absurd h (by simp)
  | ok ver =>
  rw [e4, except_bind_ok] at h
  cases e5 : pyIndex data 5 with
  | error e => rw [e5, except_bind_error] at h; exact absurd h (by simp)
  | ok anon =>
  rw [e5, except_bind_ok, Except.ok.injEq] at h
  subst h
  refine ⟨anon, rfl, ?_⟩
  simp [Bool.or_eq_true, beq_iff_eq]

/-- C8: in every table-row function the record's anonymous flag is true
exactly when the row's anonymity label (cell 4 for the free-proxy-list
family and ssl, cell 5 for socks) lower-cases to `anonymous` or
`elite proxy`; concretely, label `Elite Proxy` yields `anonymous = True`
and label `Transparent` yields `anonymous = False`. -/
theorem table_row_anonymity :
    (∀ (src : String) (data : List String) (p : Proxy),
      mkRowFPL src data = Except.ok p →
      ∃ lab, pyIndex data 4 = Except.ok lab ∧
        (p.anonymous = some true ↔
          (pyLower lab = "anonymous" ∨ pyLower lab = "elite proxy"))) ∧
    (∀ (src : String) (data : List String) (p : Proxy),
      mkRowSSL src data = Except.ok p →
      ∃ lab, pyIndex data 4 = Except.ok lab ∧
        (p.anonymous = some true ↔
          (pyLower lab = "anonymous" ∨ pyLower lab = "elite proxy"))) ∧
    (∀ (src : String) (data : List String) (p : Proxy),
      mkRowSocks src data = Except.ok p →
      ∃ lab, pyIndex data 5 = Except.ok lab ∧
        (p.anonymous = some true ↔
          (pyLower lab = "anonymous" ∨ pyLower lab = "elite proxy"))) ∧
    mkRowFPL "us-proxy" ["h", "80", "US", "United States", "Elite Proxy", "x", "no"]
      = Except.ok ⟨"h", "80", some "us", some "united states", some true,
          "http", "us-proxy"⟩ ∧
    mkRowFPL "us-proxy" ["h", "80", "US", "United States", "Transparent", "x", "no"]
      = Except.ok ⟨"h", "80", some "us", some "united states", some false,
          "http", "us-proxy"⟩ :=
  ⟨mkRowFPL_anonymous, mkRowSSL_anonymous, mkRowSocks_anonymous, rfl, rfl⟩

/-- Closed instance of `table_row_anonymity`: applied to the concrete
`Elite Proxy` row, the produced record's anonymous flag is true. -/
theorem table_row_anonymity_witness :
    (⟨"h", "80", some "us", some "united states", some true, "http",
      "us-proxy"⟩ : Proxy).anonymous = some true := by
  obtain ⟨lab, hlab, hiff⟩ := table_row_anonymity.1 "us-proxy"
    ["h", "80", "US", "United States", "Elite Proxy", "x", "no"]
    ⟨"h", "80", some "us", some "united states", some true, "http", "us-proxy"⟩
    rfl
  have hl : lab = "Elite Proxy" := by
    have hpy : pyIndex ["h", "80", "US", "United States", "Elite Proxy", "x", "no"] 4
        = Except.ok "Elite Proxy" := rfl
    rw [hpy, Except.ok.injEq] at hlab
    exact hlab.symm
  subst hl
  exact hiff.mpr (Or.inr rfl)

theorem updf_same {α : Type} (g : Bool → α) (i : Bool) (v : α) :
    updf g i v i = v := by
  simp [updf]

theorem updf_other {α : Type} (g : Bool → α) (i j : Bool) (v : α) (h : j ≠ i) :
    updf g i v j = g j := by
  simp [updf, h]

/-- The invariant is preserved by every step, provided both threads'
parsers would succeed and every clock read stays below `n0 + iv`. -/
theorem SysInv_step (iv : ℚ) (a : Bool → Bool)
    (fr : Bool → Except PyError (Finset Proxy)) (B n0 : ℚ)
    (hok : ∀ i, ∃ ps, fr i = Except.ok ps) (hB : B ≤ n0 + iv)
    (s s' : Sys) (hst : Step iv a fr B s s') (hinv : SysInv a n0 s) :
    SysInv a n0 s' := by
  obtain ⟨hnow, hmutex, hcount, hwin, hif⟩ := hinv
  cases hst with
  | fastFail i t hpc hle hBt hgt =>
    unfold SysInv
    dsimp only
    refine ⟨le_trans hnow hle, ?_, hcount, ?_, ?_⟩
    · intro j hj
      by_cases hji : j = i
      · subst hji
        rw [updf_same] at hj
        rcases hj with hj | hj <;> simp at hj
      · rw [updf_other _ _ _ _ hji] at hj
        exact hmutex j hj
    · intro r hr
      rcases hwin r hr with ⟨j, haj, hjf⟩ | hlast
      · left
        have hji : j ≠ i := by
          intro hh
          rw [hh, hpc] at hjf
          exact absurd hjf (by simp)
        exact ⟨j, haj, by rw [updf_other _ _ _ _ hji]; exact hjf⟩
      · right
        exact hlast
    · intro j hj
      by_cases hji : j = i
      · subst hji
        rw [updf_same] at hj
        simp at hj
      · rw [updf_other _ _ _ _ hji] at hj
        exact hif j hj
  | fastPass i t hpc hle hBt hgt =>
    unfold SysInv
    dsimp only
    refine ⟨le_trans hnow hle, ?_, hcount, ?_, ?_⟩
    · intro j hj
      by_cases hji : j = i
      · subst hji
        rw [updf_same] at hj
        rcases hj with hj | hj <;> simp at hj
      · rw [updf_other _ _ _ _ hji] at hj
        exact hmutex j hj
    · intro r hr
      rcases hwin r hr with ⟨j, haj, hjf⟩ | hlast
      · left
        have hji : j ≠ i := by
          intro hh
          rw [hh, hpc] at hjf
          exact absurd hjf (by simp)
        exact ⟨j, haj, by rw [updf_other _ _ _ _ hji]; exact hjf⟩
      · right
        exact hlast
    · intro j hj
      by_cases hji : j = i
      · subst hji
        rw [updf_same] at hj
        simp at hj
      · rw [updf_other _ _ _ _ hji] at hj
        exact hif j hj
  | acquire i hpc hlock =>
    unfold SysInv
    dsimp only
    refine ⟨hnow, ?_, hcount, ?_, ?_⟩
    · intro j hj
      by_cases hji : j = i
      · subst hji
        rw [updf_same]
      · rw [updf_other _ _ _ _ hji] at hj
        have hold := hmutex j hj
        by_cases hra : a j = a i
        · exfalso
          rw [hra, hlock] at hold
          exact absurd hold (by simp)
        · rw [updf_other _ _ _ _ hra]
          exact hold
    · intro r hr
      rcases hwin r hr with ⟨j, haj, hjf⟩ | hlast
      · left
        have hji : j ≠ i := by
          intro hh
          rw [hh, hpc] at hjf
          exact absurd hjf (by simp)
        exact ⟨j, haj, by rw [updf_other _ _ _ _ hji]; exact hjf⟩
      · right
        by_cases hra : r = a i
        · rw [hra, updf_same]
          rw [hra] at hlast
          exact hlast
        · rw [updf_other _ _ _ _ hra]
          exact hlast
    · intro j hj
      by_cases hji : j = i
      · subst hji
        rw [updf_same] at hj
        simp at hj
      · rw [updf_other _ _ _ _ hji] at hj
        exact hif j hj
  | recheckFail i t hpc hle hBt hchk =>
    unfold SysInv
    dsimp only
    refine ⟨le_trans hnow hle, ?_, hcount, ?_, ?_⟩
    · intro j hj
      by_cases hji : j = i
      · subst hji
        rw [updf_same] at hj
        rcases hj with hj | hj <;> simp at hj
      · rw [updf_other _ _ _ _ hji] at hj
        have hold := hmutex j hj
        by_cases hra : a j = a i
        · exfalso
          have holdi := hmutex i (Or.inl hpc)
          rw [hra, holdi] at hold
          simp at hold
          exact hji hold.symm
        · rw [updf_other _ _ _ _ hra]
          exact hold
    · intro r hr
      rcases hwin r hr with ⟨j, haj, hjf⟩ | hlast
      · left
        have hji : j ≠ i := by
          intro hh
          rw [hh, hpc] at hjf
          exact absurd hjf (by simp)
        exact ⟨j, haj, by rw [updf_other _ _ _ _ hji]; exact hjf⟩
      · right
        by_cases hra : r = a i
        · rw [hra, updf_same]
          rw [hra] at hlast
          exact hlast
        · rw [updf_other _ _ _ _ hra]
          exact hlast
    · intro j hj
      by_cases hji : j = i
      · subst hji
        rw [updf_same] at hj
        simp at hj
      · rw [updf_other _ _ _ _ hji] at hj
        exact hif j hj
  | recheckPass i t hpc hle hBt hchk =>
    unfold SysInv
    dsimp only
    have hz : s.fetches (a i) = 0 := by
      by_contra hnz
      have h1 : 1 ≤ s.fetches (a i) := Nat.one_le_iff_ne_zero.mpr hnz
      rcases hwin (a i) h1 with ⟨j, haj, hjf⟩ | hlast
      · have hlj := hmutex j (Or.inr hjf)
        have hli := hmutex i (Or.inl hpc)
        rw [haj, hli] at hlj
        simp at hlj
        rw [← hlj, hpc] at hjf
        exact absurd hjf (by simp)
      · linarith
    refine ⟨le_trans hnow hle, ?_, ?_, ?_, ?_⟩
    · intro j hj
      by_cases hji : j = i
      · subst hji
        exact hmutex j (Or.inl hpc)
      · rw [updf_other _ _ _ _ hji] at hj
        exact hmutex j hj
    · intro r
      by_cases hra : r = a i
      · rw [hra, updf_same, hz]
      · rw [updf_other _ _ _ _ hra]
        exact hcount r
    · intro r hr
      by_cases hra : r = a i
      · left
        exact ⟨i, hra.symm, by rw [updf_same]⟩
      · rw [updf_other _ _ _ _ hra] at hr
        rcases hwin r hr with ⟨j, haj, hjf⟩ | hlast
        · left
          have hji : j ≠ i := by
            intro hh
            rw [hh] at haj
            exact hra haj.symm
          exact ⟨j, haj, by rw [updf_other _ _ _ _ hji]; exact hjf⟩
        · right
          exact hlast
    · intro j hj
      by_cases hji : j = i
      · subst hji
        rw [updf_same]
        omega
      · rw [updf_other _ _ _ _ hji] at hj
        have hold := hif j hj
        by_cases hra : a j = a i
        · rw [hra] at hold
          rw [hra, updf_same]
          omega
        · rw [updf_other _ _ _ _ hra]
          exact hold
  | fetchOk i t ps hpc hfr hle hBt =>
    unfold SysInv
    dsimp only
    refine ⟨le_trans hnow hle, ?_, hcount, ?_, ?_⟩
    · intro j hj
      by_cases hji : j = i
      · subst hji
        rw [updf_same] at hj
        rcases hj with hj | hj <;> simp at hj
      · rw [updf_other _ _ _ _ hji] at hj
        have hold := hmutex j hj
        by_cases hra : a j = a i
        · exfalso
          have holdi := hmutex i (Or.inr hpc)
          rw [hra, holdi] at hold
          simp at hold
          exact hji hold.symm
        · rw [updf_other _ _ _ _ hra]
          exact hold
    · intro r hr
      by_cases hra : r = a i
      · right
        rw [hra, updf_same]
        exact le_trans hnow hle
      · rcases hwin r hr with ⟨j, haj, hjf⟩ | hlast
        · left
          have hji : j ≠ i := by
            intro hh
            rw [hh] at haj
            exact hra haj.symm
          exact ⟨j, haj, by rw [updf_other _ _ _ _ hji]; exact hjf⟩
        · right
          rw [updf_other _ _ _ _ hra]
          exact hlast
    · intro j hj
      by_cases hji : j = i
      · subst hji
        rw [updf_same] at hj
        simp at hj
      · rw [updf_other _ _ _ _ hji] at hj
        exact hif j hj
  | fetchErr i e hpc hfr =>
    obtain ⟨ps, hps⟩ := hok i
    rw [hps] at hfr
    simp at hfr

/-- The invariant holds in every reachable state. -/
theorem SysInv_reach (iv : ℚ) (a : Bool → Bool)
    (fr : Bool → Except PyError (Finset Proxy)) (B n0 : ℚ) (l0 : Bool → ℚ)
    (hok : ∀ i, ∃ ps, fr i = Except.ok ps) (hB : B ≤ n0 + iv)
    (s : Sys) (h : Relation.ReflTransGen (Step iv a fr B) (sysInit l0 n0) s) :
    SysInv a n0 s := by
  induction h with
  | refl =>
    unfold SysInv sysInit
    dsimp only
    refine ⟨le_refl n0, ?_, ?_, ?_, ?_⟩
    · intro i hi
      rcases hi with hi | hi <;> simp at hi
    · intro r
      exact Nat.zero_le 1
    · intro r hr
      exact absurd hr (by omega)
    · intro i hi
      simp at hi
  | tail hsteps hstep ih =>
    exact SysInv_step iv a fr B n0 hok hB _ _ hstep ih

/-- The interleaving that reaches `c9S6`: refreshes on different
resources are not serialized against each other — both threads can hold
their own resource's lock and have their parses in flight simultaneously. -/
theorem c9_trace :
    Relation.ReflTransGen
      (Step 10 (fun i => i) (fun _ => Except.ok (∅ : Finset Proxy)) 105)
      c9S0 c9S6 := by
  refine Relation.ReflTransGen.head
    (Step.fastPass c9S0 false 100 (by decide) (by norm_num [c9S0, sysInit])
      (by norm_num) (by norm_num [c9S0, sysInit])) ?_
  refine Relation.ReflTransGen.head
    (Step.fastPass c9S1 true 100 (by decide) (by norm_num [c9S1, c9S0, sysInit])
      (by norm_num) (by norm_num [c9S1, c9S0, sysInit, updf])) ?_
  refine Relation.ReflTransGen.head
    (Step.acquire c9S2 false (by decide) (by decide)) ?_
  refine Relation.ReflTransGen.head
    (Step.acquire c9S3 true (by decide) (by decide)) ?_
  refine Relation.ReflTransGen.head
    (Step.recheckPass c9S4 false 100 (by decide)
      (by norm_num [c9S4, c9S3, c9S2, c9S1, c9S0, sysInit, updf])
      (by norm_num)
      (by norm_num [c9S4, c9S3, c9S2, c9S1, c9S0, sysInit, updf])) ?_
  refine Relation.ReflTransGen.head
    (Step.recheckPass c9S5 true 100 (by decide)
      (by norm_num [c9S5, c9S4, c9S3, c9S2, c9S1, c9S0, sysInit, updf])
      (by norm_num)
      (by norm_num [c9S5, c9S4, c9S3, c9S2, c9S1, c9S0, sysInit, updf])) ?_
  exact Relation.ReflTransGen.refl

/-- C9: concurrent `refresh(force=False)` calls.  In every state reachable
from two threads whose parsers would succeed and whose clock reads stay
within one refresh interval of the start ("issued simultaneously"), (1) at
most one fetch has started per resource — in particular, two threads
racing on the *same* resource perform at most one fetch between them; (2)
the per-resource lock admits at most one in-flight parse per resource at
any time; and (3) the locks do not serialize different resources: in the
concrete two-resource race both parses are in flight simultaneously at
the reachable state `c9S6`. -/
theorem refresh_concurrent_single_fetch
    (iv B n0 : ℚ) (a : Bool → Bool) (fr : Bool → Except PyError (Finset Proxy))
    (l0 : Bool → ℚ) (s : Sys)
    (hok : ∀ i, ∃ ps, fr i = Except.ok ps) (hB : B ≤ n0 + iv)
    (h : Relation.ReflTransGen (Step iv a fr B) (sysInit l0 n0) s) :
    (∀ r : Bool, s.fetches r ≤ 1) ∧
    (∀ i j : Bool, s.pcs i = TPC.inFetch → s.pcs j = TPC.inFetch →
      a i = a j → i = j) ∧
    (Relation.ReflTransGen
        (Step 10 (fun i => i) (fun _ => Except.ok (∅ : Finset Proxy)) 105)
        (sysInit (fun _ => 0) 100) c9S6 ∧
      c9S6.pcs false = TPC.inFetch ∧ c9S6.pcs true = TPC.inFetch) := by
  obtain ⟨-, hmutex, hcount, -, -⟩ := SysInv_reach iv a fr B n0 l0 hok hB s h
  refine ⟨hcount, ?_, c9_trace, by decide, by decide⟩
  intro i j hi hj hra
  have h1 := hmutex i (Or.inr hi)
  have h2 := hmutex j (Or.inr hj)
  rw [hra] at h1
  rw [h1] at h2
  exact Option.some.inj h2

/-- Closed instance of `refresh_concurrent_single_fetch`, applied at the
end of the concrete six-step race `c9_trace` (where both resources have
exactly one fetch started). -/
theorem refresh_concurrent_single_fetch_witness :
    c9S6.fetches false ≤ 1 ∧ c9S6.fetches true ≤ 1 := by
  have h := refresh_concurrent_single_fetch 10 105 100 (fun i => i)
    (fun _ => Except.ok ∅) (fun _ => 0) c9S6
    (fun i => ⟨∅, rfl⟩) (by norm_num) c9_trace
  exact ⟨h.1 false, h.1 true⟩
